import Mathlib

/-!
Shallow embedding of the trace sanitization and reconciliation engine of
src/src/App.jsx (a React map-tracking frontend).

Modelling conventions:
* JavaScript numbers are modelled by `JSNum`: a finite rational, NaN, or a
  signed infinity.  Point records reaching `cleanAndSortHistory` are modelled
  after the `Number(...)` coercion of their fields (the coercion of an
  arbitrary JS value is a double, i.e. a `JSNum`), so the normalization `map`
  at App.jsx:70-75 is the identity on fields and only the finiteness filter
  at App.jsx:76 remains.
* Timestamps are modelled as `Option ℚ`: `none` is a nullish `ts` field and
  `some q` a finite epoch-second value.  (A NaN or infinite `ts` would make
  the JS sort comparator `a.ts - b.ts` inconsistent, for which ECMAScript
  leaves the sort order implementation-defined, so no theorem could be stated
  about such inputs.)
* The haversine distance `earthKm` (App.jsx:88-98) uses floating-point
  trigonometry, which has no exact embedding; the sanitizer and the statistics
  are therefore parameterised by an arbitrary distance function
  `dist : Point → Point → ℚ`, and the theorems hold for every such function,
  in particular for the haversine distance.
* `Date.now()` is passed explicitly as the parameter `now` (epoch seconds).
-/

/-- A JavaScript number: a finite rational, NaN, or a signed infinity. -/
inductive JSNum where
  | num (q : ℚ)
  | nan
  | posInf
  | negInf
deriving DecidableEq, Repr

/-- Number.isFinite on a `JSNum`. -/
def JSNum.isFinite : JSNum → Bool
  | .num _ => true
  | _ => false

/-- A point record as it reaches `cleanAndSortHistory` (App.jsx:60): the
`lat`/`lon` fields after `Number(...)` coercion, and the `ts` field, which is
either nullish or a finite epoch-second value. -/
structure Point where
  lat : JSNum
  lon : JSNum
  ts : Option ℚ
deriving DecidableEq, Repr

instance : Inhabited Point := ⟨⟨.num 0, .num 0, none⟩⟩

/-- Numeric value of a point's timestamp, defaulting to 0; on the lists the
sanitizer sorts and walks, every `ts` is present, so the default is inert. -/
def tsKey (p : Point) : ℚ := p.ts.getD 0

/-- JavaScript truthiness of a `ts` field (`!p.ts` in App.jsx:498,526):
nullish and 0 are falsy, any other number is truthy. -/
def tsTruthy : Option ℚ → Bool
  | none => false
  | some q => decide (q ≠ 0)

/-- The options record of `cleanAndSortHistory` (App.jsx:62-66). -/
structure CleanOpts where
  minYear : ℚ
  jumpKmThreshold : ℚ
  maxFutureSec : ℚ
deriving Repr

/-- The default options: `minYear = 2009`, `jumpKmThreshold = 200`,
`maxFutureSec = 24 * 3600` (App.jsx:63-65). -/
def defaultOpts : CleanOpts := ⟨2009, 200, 24 * 3600⟩

/-- The normalization stage (App.jsx:70-76): coerce fields to numbers (the
identity in this embedding, see the header comment) and drop every point
whose `lat` or `lon` is not finite.  `List.filter` preserves relative order. -/
def normalizePoints (history : List Point) : List Point :=
  history.filter (fun p => p.lat.isFinite && p.lon.isFinite)

/-- The timestamp plausibility test (App.jsx:78-83): `ts` must be non-null,
not before `minYear * 365 * 24 * 3600`, and not after `now + maxFutureSec`. -/
def validTs (now : ℚ) (opts : CleanOpts) (p : Point) : Bool :=
  match p.ts with
  | none => false
  | some ts =>
      if ts < opts.minYear * 365 * 24 * 3600 then false
      else if now + opts.maxFutureSec < ts then false
      else true

/-- The timestamp filter stage producing `withValidTs` (App.jsx:78-83). -/
def filterValidTs (now : ℚ) (opts : CleanOpts) (l : List Point) : List Point :=
  l.filter (validTs now opts)

/-- The sort order used at App.jsx:85: ascending by timestamp. -/
def tsLe (a b : Point) : Prop := tsKey a ≤ tsKey b

instance : DecidableRel tsLe :=
  fun a b => decidable_of_iff (tsKey a ≤ tsKey b) Iff.rfl

instance : IsTotal Point tsLe := ⟨fun a b => le_total (tsKey a) (tsKey b)⟩

instance : IsTrans Point tsLe := ⟨fun _ _ _ h1 h2 => le_trans h1 h2⟩

/-- The sort `withValidTs.sort((a, b) => a.ts - b.ts)` (App.jsx:85).
JavaScript's Array.prototype.sort is stable, and a stable sort by a total
preorder has a unique result, so the stable `insertionSort` models it. -/
def sortByTs (l : List Point) : List Point := List.insertionSort tsLe l

/-- The spike test of App.jsx:108: the candidate is more than
`jumpKmThreshold` kilometres from the last accepted point and less than 60
seconds after it. -/
def spiky (dist : Point → Point → ℚ) (thr : ℚ) (prevP p : Point) : Bool :=
  decide (thr < dist prevP p) && decide (tsKey p - tsKey prevP < 60)

/-- The despike walk of App.jsx:100-114 from the second point on, carrying
the last accepted point (the loop's `cleaned[cleaned.length - 1]`). -/
def despikeAux (dist : Point → Point → ℚ) (thr : ℚ) : Point → List Point → List Point
  | _, [] => []
  | prevP, p :: rest =>
      if spiky dist thr prevP p then despikeAux dist thr prevP rest
      else p :: despikeAux dist thr p rest

/-- The despike walk of App.jsx:100-114: the first point is always accepted,
each later point is compared against the last accepted point. -/
def despike (dist : Point → Point → ℚ) (thr : ℚ) : List Point → List Point
  | [] => []
  | p :: rest => p :: despikeAux dist thr p rest

/-- The sanitizer body for array input (App.jsx:60-118): normalize, keep
plausible timestamps, sort ascending by timestamp, despike. -/
def cleanAndSortHistoryList (dist : Point → Point → ℚ) (now : ℚ) (opts : CleanOpts)
    (history : List Point) : List Point :=
  despike dist opts.jumpKmThreshold
    (sortByTs (filterValidTs now opts (normalizePoints history)))

/-- The argument of `cleanAndSortHistory`: either an array of points or a
non-array value (rejected by `Array.isArray` at App.jsx:61). -/
inductive JSInput where
  | arr (points : List Point)
  | notArray
deriving Repr

/-- The full sanitizer `cleanAndSortHistory` (App.jsx:60-118): a non-array
input yields the empty list. -/
def cleanAndSortHistory (dist : Point → Point → ℚ) (now : ℚ) (opts : CleanOpts) :
    JSInput → List Point
  | .notArray => []
  | .arr history => cleanAndSortHistoryList dist now opts history

theorem despikeAux_sublist (dist : Point → Point → ℚ) (thr : ℚ) :
    ∀ (prevP : Point) (l : List Point), List.Sublist (despikeAux dist thr prevP l) l
  | _, [] => List.Sublist.refl []
  | prevP, p :: rest => by
      rw [despikeAux]
      split
      · exact (despikeAux_sublist dist thr prevP rest).cons p
      · exact (despikeAux_sublist dist thr p rest).cons₂ p

theorem despike_sublist (dist : Point → Point → ℚ) (thr : ℚ) (l : List Point) :
    List.Sublist (despike dist thr l) l := by
  cases l with
  | nil => exact List.Sublist.refl []
  | cons p rest => exact (despikeAux_sublist dist thr p rest).cons₂ p

theorem chain'_cons_despikeAux (dist : Point → Point → ℚ) (thr : ℚ) :
    ∀ (l : List Point) (prevP : Point),
      List.Chain' (fun a b => spiky dist thr a b = false)
        (prevP :: despikeAux dist thr prevP l)
  | [], _ => List.chain'_singleton _
  | p :: rest, prevP => by
      rw [despikeAux]
      split
      · exact chain'_cons_despikeAux dist thr rest prevP
      · rename_i hsp
        exact List.Chain'.cons (by simpa using hsp)
          (chain'_cons_despikeAux dist thr rest p)

theorem despike_chain' (dist : Point → Point → ℚ) (thr : ℚ) (l : List Point) :
    List.Chain' (fun a b => spiky dist thr a b = false) (despike dist thr l) := by
  cases l with
  | nil => exact List.chain'_nil
  | cons p rest => exact chain'_cons_despikeAux dist thr rest p

theorem despikeAux_eq_self (dist : Point → Point → ℚ) (thr : ℚ) :
    ∀ (l : List Point) (prevP : Point),
      List.Chain' (fun a b => spiky dist thr a b = false) (prevP :: l) →
      despikeAux dist thr prevP l = l
  | [], _, _ => rfl
  | p :: rest, prevP, h => by
      have hd : spiky dist thr prevP p = false := (List.chain'_cons.mp h).1
      rw [despikeAux, if_neg (by simp [hd])]
      exact congrArg (p :: ·) (despikeAux_eq_self dist thr rest p (List.Chain'.tail h))

theorem despike_eq_self (dist : Point → Point → ℚ) (thr : ℚ) (l : List Point)
    (h : List.Chain' (fun a b => spiky dist thr a b = false) l) :
    despike dist thr l = l := by
  cases l with
  | nil => rfl
  | cons p rest =>
      rw [despike]
      exact congrArg (p :: ·) (despikeAux_eq_self dist thr rest p h)

theorem clean_sorted (dist : Point → Point → ℚ) (now : ℚ) (opts : CleanOpts) (l : List Point) :
    List.Sorted tsLe (cleanAndSortHistoryList dist now opts l) :=
  List.Pairwise.sublist (despike_sublist dist opts.jumpKmThreshold _)
    (List.sorted_insertionSort tsLe _)

theorem mem_cleanList (dist : Point → Point → ℚ) (now : ℚ) (opts : CleanOpts)
    (l : List Point) (p : Point) (hp : p ∈ cleanAndSortHistoryList dist now opts l) :
    p ∈ normalizePoints l ∧ validTs now opts p = true := by
  have h1 : p ∈ sortByTs (filterValidTs now opts (normalizePoints l)) :=
    (despike_sublist dist opts.jumpKmThreshold _).subset hp
  have h2 : p ∈ filterValidTs now opts (normalizePoints l) :=
    (List.mem_insertionSort tsLe).mp h1
  exact List.mem_filter.mp h2

theorem mem_normalize_finite (l : List Point) (p : Point) (hp : p ∈ normalizePoints l) :
    (p.lat.isFinite && p.lon.isFinite) = true :=
  (List.mem_filter.mp hp).2

theorem valid_iff (now : ℚ) (opts : CleanOpts) (p : Point) :
    validTs now opts p = true ↔
      ∃ ts, p.ts = some ts ∧ opts.minYear * 365 * 86400 ≤ ts ∧ ts ≤ now + opts.maxFutureSec := by
  have harith : opts.minYear * 365 * 24 * 3600 = opts.minYear * 365 * 86400 := by ring
  cases hts : p.ts with
  | none => simp [validTs, hts]
  | some t =>
      simp only [validTs, hts, Option.some.injEq]
      constructor
      · intro h
        by_cases h1 : t < opts.minYear * 365 * 24 * 3600
        · rw [if_pos h1] at h; cases h
        · rw [if_neg h1] at h
          by_cases h2 : now + opts.maxFutureSec < t
          · rw [if_pos h2] at h; cases h
          · push_neg at h1 h2
            refine ⟨t, rfl, ?_, h2⟩
            rw [← harith]; exact h1
      · rintro ⟨ts, rfl, hlo, hhi⟩
        rw [if_neg (by rw [harith]; exact not_lt.mpr hlo), if_neg (not_lt.mpr hhi)]

/-- C1.  Idempotence of the sanitizer: re-running `cleanAndSortHistory` on its
own output (with the same wall-clock `now`, the same options and the same
distance function) returns that output unchanged. -/
theorem sanitize_idempotent (dist : Point → Point → ℚ) (now : ℚ) (opts : CleanOpts)
    (x : JSInput) :
    cleanAndSortHistory dist now opts (JSInput.arr (cleanAndSortHistory dist now opts x)) =
      cleanAndSortHistory dist now opts x := by
  have key : ∀ l : List Point,
      cleanAndSortHistoryList dist now opts (cleanAndSortHistoryList dist now opts l) =
        cleanAndSortHistoryList dist now opts l := by
    intro l
    set out := cleanAndSortHistoryList dist now opts l with hout
    have hmem : ∀ p ∈ out, p ∈ normalizePoints l ∧ validTs now opts p = true :=
      fun p hp => mem_cleanList dist now opts l p hp
    have hn : normalizePoints out = out :=
      List.filter_eq_self.mpr (fun p hp => mem_normalize_finite l p (hmem p hp).1)
    have hf : filterValidTs now opts out = out :=
      List.filter_eq_self.mpr (fun p hp => (hmem p hp).2)
    have hs : sortByTs out = out := (clean_sorted dist now opts l).insertionSort_eq
    have hchain : List.Chain' (fun a b => spiky dist opts.jumpKmThreshold a b = false) out :=
      despike_chain' dist opts.jumpKmThreshold _
    have hd : despike dist opts.jumpKmThreshold out = out :=
      despike_eq_self dist opts.jumpKmThreshold out hchain
    calc cleanAndSortHistoryList dist now opts out
        = despike dist opts.jumpKmThreshold
            (sortByTs (filterValidTs now opts (normalizePoints out))) := rfl
      _ = out := by rw [hn, hf, hs, hd]
  cases x with
  | notArray => exact key []
  | arr l => exact key l

/-- C2.  Spike exclusion law: every pair of consecutive points `(prev, p)` in
the sanitizer's output satisfies
NOT(`dist prev p > jumpKmThreshold` AND `p.ts - prev.ts < 60`).  The theorem
is proved for every distance function `dist`, in particular for the haversine
great-circle distance with Earth radius 6371 km used at App.jsx:88-98. -/
theorem sanitize_spike_exclusion (dist : Point → Point → ℚ) (now : ℚ) (opts : CleanOpts)
    (x : JSInput) :
    List.Chain'
      (fun prevP p => ¬(opts.jumpKmThreshold < dist prevP p ∧ tsKey p - tsKey prevP < 60))
      (cleanAndSortHistory dist now opts x) := by
  cases x with
  | notArray => exact List.chain'_nil
  | arr l =>
      have h := despike_chain' dist opts.jumpKmThreshold
        (sortByTs (filterValidTs now opts (normalizePoints l)))
      refine h.imp ?_
      intro a b hab hcon
      rcases hcon with ⟨h1, h2⟩
      simp [spiky, h1, h2] at hab

/-- C3.  Monotonic ordering: the timestamps of the sanitizer's output are
non-decreasing, `ts[i] <= ts[i+1]` for every pair of consecutive output
points. -/
theorem sanitize_ts_monotone (dist : Point → Point → ℚ) (now : ℚ) (opts : CleanOpts)
    (x : JSInput) :
    List.Chain' tsLe (cleanAndSortHistory dist now opts x) := by
  cases x with
  | notArray => exact List.chain'_nil
  | arr l => exact (clean_sorted dist now opts l).chain'

/-- C4.  Timestamp plausibility filter: a point participates in the
sort-and-despike phase (i.e. survives the `withValidTs` filter applied to the
normalized pool) iff its `ts` is non-null, at least `minYear * 365 * 86400`,
and at most `now + maxFutureSec`.  In particular (see the witness) a point
with `ts = 1000000000000` is rejected whenever `now + maxFutureSec` is below
it. -/
theorem filterValidTs_mem (now : ℚ) (opts : CleanOpts) (l : List Point) (p : Point) :
    p ∈ filterValidTs now opts l ↔
      p ∈ l ∧ ∃ ts, p.ts = some ts ∧
        opts.minYear * 365 * 86400 ≤ ts ∧ ts ≤ now + opts.maxFutureSec := by
  rw [filterValidTs, List.mem_filter, valid_iff]

/-- C5.  Finiteness filter: every point surviving normalization has finite
`lat` and `lon`; points with a non-finite coordinate are dropped; the relative
order of the survivors is preserved (the output is a sublist of the input);
and consequently every point of the sanitizer's output is finite as well. -/
theorem normalize_finiteness (dist : Point → Point → ℚ) (now : ℚ) (opts : CleanOpts)
    (l : List Point) :
    (∀ p ∈ normalizePoints l, p.lat.isFinite = true ∧ p.lon.isFinite = true)
    ∧ List.Sublist (normalizePoints l) l
    ∧ (∀ p ∈ l, (p.lat.isFinite && p.lon.isFinite) = true → p ∈ normalizePoints l)
    ∧ ∀ p ∈ cleanAndSortHistoryList dist now opts l,
        p.lat.isFinite = true ∧ p.lon.isFinite = true := by
  refine ⟨?_, List.filter_sublist l, ?_, ?_⟩
  · intro p hp
    have h := mem_normalize_finite l p hp
    exact ⟨(Bool.and_eq_true _ _ ▸ h).1, (Bool.and_eq_true _ _ ▸ h).2⟩
  · intro p hp hfin
    exact List.mem_filter.mpr ⟨hp, hfin⟩
  · intro p hp
    have h := mem_normalize_finite l p (mem_cleanList dist now opts l p hp).1
    exact ⟨(Bool.and_eq_true _ _ ▸ h).1, (Bool.and_eq_true _ _ ▸ h).2⟩

/-- C10.  Provenance: the sanitizer output is a sublist of the sorted,
timestamp-filtered, normalized pool; every output point is one of the
normalized input points; the output is never longer than the input; and a
non-array input yields the empty list. -/
theorem sanitize_provenance (dist : Point → Point → ℚ) (now : ℚ) (opts : CleanOpts)
    (l : List Point) :
    List.Sublist (cleanAndSortHistoryList dist now opts l)
        (sortByTs (filterValidTs now opts (normalizePoints l)))
    ∧ (∀ p ∈ cleanAndSortHistoryList dist now opts l, p ∈ normalizePoints l)
    ∧ (cleanAndSortHistoryList dist now opts l).length ≤ l.length
    ∧ cleanAndSortHistory dist now opts JSInput.notArray = [] := by
  refine ⟨despike_sublist dist opts.jumpKmThreshold _, ?_, ?_, rfl⟩
  · intro p hp
    exact (mem_cleanList dist now opts l p hp).1
  · have h1 : (cleanAndSortHistoryList dist now opts l).length ≤
        (sortByTs (filterValidTs now opts (normalizePoints l))).length :=
      (despike_sublist dist opts.jumpKmThreshold _).length_le
    have h2 : (sortByTs (filterValidTs now opts (normalizePoints l))).length =
        (filterValidTs now opts (normalizePoints l)).length :=
      (List.perm_insertionSort tsLe _).length_eq
    have h3 : (filterValidTs now opts (normalizePoints l)).length ≤
        (normalizePoints l).length :=
      (List.filter_sublist _).length_le
    have h4 : (normalizePoints l).length ≤ l.length := (List.filter_sublist l).length_le
    omega

/-- A constant distance function used to instantiate the parametric theorems
in concrete witnesses. -/
def dist0 : Point → Point → ℚ := fun _ _ => 0

/-- A well-formed concrete point (Scenario A of the spec). -/
def ptA : Point := ⟨.num 10, .num 20, some 1700000000⟩

/-- A second well-formed concrete point five seconds later. -/
def ptB : Point := ⟨.num (10001/1000), .num (20001/1000), some 1700000005⟩

/-- A concrete point with a NaN latitude. -/
def ptNaN : Point := ⟨.nan, .num 0, some 1700000000⟩

/-- A concrete point with a milliseconds timestamp far in the future
(Scenario C of the spec). -/
def ptFuture : Point := ⟨.num 1, .num 2, some 1000000000000⟩

theorem filterValidTs_mem_witness :
    ptFuture ∉ filterValidTs 1700000000 defaultOpts [ptFuture] := by
  intro hmem
  rcases (filterValidTs_mem 1700000000 defaultOpts [ptFuture] ptFuture).mp hmem with
    ⟨-, ts, hts, -, hub⟩
  rw [show ptFuture.ts = some 1000000000000 from rfl] at hts
  injection hts with h
  subst h
  norm_num [defaultOpts] at hub

theorem normalize_finiteness_witness :
    ptA ∈ normalizePoints [ptA, ptNaN] ∧ ptA.lat.isFinite = true ∧ ptA.lon.isFinite = true := by
  have h := normalize_finiteness dist0 1700000100 defaultOpts [ptA, ptNaN]
  have hmem : ptA ∈ normalizePoints [ptA, ptNaN] := h.2.2.1 ptA (by decide) (by decide)
  exact ⟨hmem, h.1 ptA hmem⟩

theorem sanitize_provenance_witness :
    (cleanAndSortHistoryList dist0 1700000100 defaultOpts [ptA, ptNaN]).length ≤ 2 :=
  (sanitize_provenance dist0 1700000100 defaultOpts [ptA, ptNaN]).2.2.1

/-- The normalized latest report (App.jsx:262-270): `speed`/`battery` are null
or numeric, `sos` is the truthiness coercion `!!latest.sos`, `timestamp` is a
number (defaulted to `now` when the raw record had none). -/
structure LatestLoc where
  device_id : String
  lat : JSNum
  lon : JSNum
  speed : Option ℚ
  battery : Option ℚ
  sos : Bool
  timestamp : ℚ
deriving DecidableEq, Repr

/-- One entry of the `speeds` computation of App.jsx:496-514 for the pair
`(history[i-1], history[i])`: null when either timestamp is falsy
(`!p.ts || !history[i-1]?.ts`) or `dt <= 0`, else the segment speed in m/s,
`distance * 1000 / dt` kilometres-to-metres. -/
def segSpeedOpt (dist : Point → Point → ℚ) (prevP p : Point) : Option ℚ :=
  if !(tsTruthy p.ts) || !(tsTruthy prevP.ts) then none
  else if tsKey p - tsKey prevP ≤ 0 then none
  else some (dist prevP p * 1000 / (tsKey p - tsKey prevP))

/-- The `averageSpeed` memo (App.jsx:492-519).  The JS maps over `history`
with index `i`, pairing `history[i]` against `history[i-1]` for `i >= 1` and
discarding nulls; `history.zip history.tail` enumerates exactly those pairs. -/
def averageSpeed (dist : Point → Point → ℚ) (history : List Point)
    (latestLocation : Option LatestLoc) : Option ℚ :=
  match latestLocation with
  | none => none
  | some loc =>
      match loc.speed with
      | none => none
      | some sp =>
          if history.length < 2 then some sp
          else
            let speeds := (history.zip history.tail).filterMap
              (fun ab => segSpeedOpt dist ab.1 ab.2)
            if speeds.length = 0 then some sp
            else some (speeds.foldl (· + ·) 0 / (speeds.length : ℚ))

/-- Modelled from the spec: the claim's description of `averageSpeedMps`,
where a pair contributes a segment whenever "both timestamps are present"
(non-null, i.e. `Option.isSome`) and `dt > 0`.  Used to compare the spec's
wording against the code. -/
def averageSpeedSpec (dist : Point → Point → ℚ) (trace : List Point)
    (latest : Option LatestLoc) : Option ℚ :=
  match latest with
  | none => none
  | some loc =>
      match loc.speed with
      | none => none
      | some sp =>
          if trace.length < 2 then some sp
          else
            let segs := (trace.zip trace.tail).filter
              (fun ab => ab.1.ts.isSome && ab.2.ts.isSome &&
                decide (0 < tsKey ab.2 - tsKey ab.1))
            if segs.length = 0 then some sp
            else
              let speeds := segs.map
                (fun ab => dist ab.1 ab.2 * 1000 / (tsKey ab.2 - tsKey ab.1))
              some (speeds.foldl (· + ·) 0 / (speeds.length : ℚ))

/-- The amended reading of the claim: a pair contributes a segment whenever
both timestamps are truthy (non-null AND non-zero; a timestamp of exactly 0
is treated as absent) and `dt > 0`. -/
def averageSpeedSpecTruthy (dist : Point → Point → ℚ) (trace : List Point)
    (latest : Option LatestLoc) : Option ℚ :=
  match latest with
  | none => none
  | some loc =>
      match loc.speed with
      | none => none
      | some sp =>
          if trace.length < 2 then some sp
          else
            let segs := (trace.zip trace.tail).filter
              (fun ab => tsTruthy ab.1.ts && tsTruthy ab.2.ts &&
                decide (0 < tsKey ab.2 - tsKey ab.1))
            if segs.length = 0 then some sp
            else
              let speeds := segs.map
                (fun ab => dist ab.1 ab.2 * 1000 / (tsKey ab.2 - tsKey ab.1))
              some (speeds.foldl (· + ·) 0 / (speeds.length : ℚ))

theorem segSpeeds_eq (dist : Point → Point → ℚ) :
    ∀ L : List (Point × Point),
      L.filterMap (fun ab => segSpeedOpt dist ab.1 ab.2) =
        (L.filter (fun ab => tsTruthy ab.1.ts && tsTruthy ab.2.ts &&
            decide (0 < tsKey ab.2 - tsKey ab.1))).map
          (fun ab => dist ab.1 ab.2 * 1000 / (tsKey ab.2 - tsKey ab.1))
  | [] => rfl
  | ab :: L => by
      rw [List.filterMap_cons, List.filter_cons, segSpeeds_eq dist L]
      cases h2 : tsTruthy ab.2.ts with
      | false => simp [segSpeedOpt, h2]
      | true =>
          cases h1 : tsTruthy ab.1.ts with
          | false => simp [segSpeedOpt, h2, h1]
          | true =>
              by_cases hdt : tsKey ab.2 - tsKey ab.1 ≤ 0
              · simp [segSpeedOpt, h2, h1, hdt, not_lt.mpr hdt]
              · simp [segSpeedOpt, h2, h1, hdt, not_le.mp hdt]

/-- The `trackingDuration` memo (App.jsx:522-528): null when the trace has
fewer than 2 points or either boundary timestamp is falsy, else
`last.ts - first.ts`. -/
def trackingDuration (history : List Point) : Option ℚ :=
  if history.length < 2 then none
  else
    let first := history.head?.bind Point.ts
    let last := history.getLast?.bind Point.ts
    if !(tsTruthy first) || !(tsTruthy last) then none
    else some (last.getD 0 - first.getD 0)

/-- A concrete point at epoch 0 (a valid instant that JavaScript truthiness
treats as absent). -/
def ptT0 : Point := ⟨.num 0, .num 0, some 0⟩

/-- A concrete point at epoch 10. -/
def ptT10 : Point := ⟨.num 0, .num 0, some 10⟩

/-- A concrete latest report with speed 5 m/s. -/
def latest5 : LatestLoc := ⟨"esp01", .num 0, .num 0, some 5, none, false, 1700000000⟩

/-- Counterexample to C6 as stated: on the trace `[ts=0, ts=10]` both
timestamps are present (non-null) and `dt = 10 > 0`, so the claim's reading
averages the one segment speed (0 m/s for the constant-zero distance
function), but the code treats the timestamp 0 as falsy, finds no valid
segment, and falls back to `latest.speed = 5`. -/
theorem averageSpeed_claim_counterexample :
    averageSpeed dist0 [ptT0, ptT10] (some latest5) = some 5 ∧
    averageSpeedSpec dist0 [ptT0, ptT10] (some latest5) = some 0 ∧
    averageSpeed dist0 [ptT0, ptT10] (some latest5) ≠
      averageSpeedSpec dist0 [ptT0, ptT10] (some latest5) := by
  have h1 : averageSpeed dist0 [ptT0, ptT10] (some latest5) = some 5 := by decide
  have h2 : averageSpeedSpec dist0 [ptT0, ptT10] (some latest5) = some 0 := by
    norm_num [averageSpeedSpec, ptT0, ptT10, latest5, dist0, tsKey]
  exact ⟨h1, h2, by rw [h1, h2]; decide⟩

/-- C6 (amended).  `averageSpeed` is null when `latest` is absent or its
speed is null; equals `latest.speed` when the trace has fewer than 2 points;
otherwise it is the arithmetic mean of the per-segment speeds
`dist * 1000 / dt` over the consecutive pairs whose timestamps are both
truthy (non-null and non-zero; a timestamp of exactly 0 is treated as absent)
and whose `dt` is positive, falling back to `latest.speed` when no such
segment exists. -/
theorem averageSpeed_eq_specTruthy (dist : Point → Point → ℚ) (history : List Point)
    (latest : Option LatestLoc) :
    averageSpeed dist history latest = averageSpeedSpecTruthy dist history latest := by
  cases latest with
  | none => rfl
  | some loc =>
      cases hsp : loc.speed with
      | none => simp only [averageSpeed, averageSpeedSpecTruthy, hsp]
      | some sp =>
          simp only [averageSpeed, averageSpeedSpecTruthy, hsp]
          by_cases hlen : history.length < 2
          · rw [if_pos hlen, if_pos hlen]
          · rw [if_neg hlen, if_neg hlen, segSpeeds_eq dist (history.zip history.tail)]
            rw [List.length_map]

/-- C7.  `trackingDuration` returns `last.ts - first.ts` exactly when the
trace has at least 2 points and both boundary timestamps are truthy (a
timestamp of exactly 0 is treated as absent); in every other case it is
null. -/
theorem trackingDuration_spec (history : List Point) :
    trackingDuration history =
      if 2 ≤ history.length ∧ tsTruthy (history.head?.bind Point.ts) = true
          ∧ tsTruthy (history.getLast?.bind Point.ts) = true then
        some ((history.getLast?.bind Point.ts).getD 0 -
          (history.head?.bind Point.ts).getD 0)
      else none := by
  simp only [trackingDuration]
  by_cases hlen : history.length < 2
  · rw [if_pos hlen, if_neg (by rintro ⟨h2, -⟩; omega)]
  · rw [if_neg hlen]
    cases hft : tsTruthy (history.head?.bind Point.ts) with
    | false =>
        rw [if_pos (by simp), if_neg (by rintro ⟨-, h, -⟩; cases h)]
    | true =>
        cases hlt : tsTruthy (history.getLast?.bind Point.ts) with
        | false =>
            rw [if_pos (by simp), if_neg (by rintro ⟨-, -, h⟩; cases h)]
        | true => rw [if_neg (by simp), if_pos ⟨by omega, rfl, rfl⟩]

/-- A structural model of JavaScript String.prototype.trim (the
device id guard at App.jsx:245): strip leading and trailing
whitespace. -/
def jsTrim (s : String) : String :=
  ⟨((s.data.dropWhile Char.isWhitespace).reverse.dropWhile Char.isWhitespace).reverse⟩

/-- The localStorage key for a device (App.jsx:34). -/
def localHistoryKey (deviceId : String) : String := "track_history_" ++ deviceId

/-- loadLocalHistory (App.jsx:46-58): a falsy (empty) device id, an absent
entry, and a corrupt (non-array) entry all yield the empty list.  The cache
is the JSON-parsed localStorage contents, keyed by storage key. -/
def loadLocalHistory (deviceId : String) (cache : String → Option (List Point)) :
    List Point :=
  if deviceId = "" then [] else (cache (localHistoryKey deviceId)).getD []

/-- saveLocalHistory (App.jsx:36-44): a falsy (empty) device id is a no-op,
otherwise the entry is overwritten. -/
def saveLocalHistory (deviceId : String) (arr : List Point)
    (cache : String → Option (List Point)) : String → Option (List Point) :=
  if deviceId = "" then cache
  else fun k => if k = localHistoryKey deviceId then some arr else cache k

/-- The normalized latest report is `LatestLoc`; this is the raw latest-fix
record before the normalization at App.jsx:262-270, with nullable fields
(numeric fields after coercion). -/
structure RemoteLatest where
  device_id : Option String
  lat : JSNum
  lon : JSNum
  speed : Option ℚ
  battery : Option ℚ
  sos : Bool
  timestamp : Option ℚ

/-- The latest-fix normalization (App.jsx:262-270): missing `device_id`
defaults to the requested device, missing `timestamp` defaults to now. -/
def normalizeLatest (deviceId : String) (now : ℚ) (r : RemoteLatest) : LatestLoc :=
  ⟨r.device_id.getD deviceId, r.lat, r.lon, r.speed, r.battery, r.sos, r.timestamp.getD now⟩

/-- A raw history entry from the remote fetch, before the normalization at
App.jsx:278-282. -/
structure RemoteRawPoint where
  lat : Option JSNum
  lon : Option JSNum
  ts : Option ℚ
  timestamp : Option ℚ

/-- The remote history normalization (App.jsx:278-282): a nullish coordinate
becomes NaN, the timestamp is `p.ts ?? p.timestamp ?? null`. -/
def normalizeRemotePoint (p : RemoteRawPoint) : Point :=
  ⟨p.lat.getD JSNum.nan, p.lon.getD JSNum.nan, p.ts.orElse (fun _ => p.timestamp)⟩

/-- Outcome of the two concurrent fetches awaited by Promise.all
(App.jsx:256-259): either both resolve (the latest fix possibly null, the
history possibly a non-array), or the combined promise rejects with an error
message. -/
inductive FetchOutcome where
  | ok (latest : Option RemoteLatest) (historyData : Option (List RemoteRawPoint))
  | fail (msg : String)

/-- A network request issued by a reconciliation cycle. -/
inductive NetCall where
  | latestCall (deviceId : String)
  | historyCall (deviceId : String)
deriving DecidableEq, Repr

/-- The component state read and written by `loadData`. -/
structure AppState where
  latestLocation : Option LatestLoc
  history : List Point
  error : Option String
  loading : Bool
  cache : String → Option (List Point)

/-- The reconciliation cycle `loadData` (App.jsx:244-318) as a state
transition.  The result of the two fetches is passed in as `outcome`; the
second component of the result records the network requests the cycle issued.
Field order of `AppState`: latestLocation, history, error, loading, cache. -/
def loadData (dist : Point → Point → ℚ) (now : ℚ) (deviceId : String)
    (outcome : FetchOutcome) (st : AppState) : AppState × List NetCall :=
  if jsTrim deviceId = "" then
    (⟨st.latestLocation, st.history, some "Please enter a device ID", st.loading, st.cache⟩, [])
  else
    let calls := [NetCall.latestCall deviceId, NetCall.historyCall deviceId]
    match outcome with
    | .fail msg =>
        (⟨none, [], some ("Failed to load data: " ++ msg), false, st.cache⟩, calls)
    | .ok latest historyData =>
        let normalizedLatest := latest.map (normalizeLatest deviceId now)
        let normalizedHistory : List Point :=
          match historyData with
          | some hd =>
              if hd.length > 0 then hd.map normalizeRemotePoint
              else
                let fromLS := loadLocalHistory deviceId st.cache
                if fromLS.length > 0 then fromLS else []
          | none =>
              let fromLS := loadLocalHistory deviceId st.cache
              if fromLS.length > 0 then fromLS else []
        let cleaned := cleanAndSortHistory dist now defaultOpts (JSInput.arr normalizedHistory)
        let cache2 :=
          if cleaned.length > 0 then saveLocalHistory deviceId cleaned st.cache else st.cache
        let latestFinal : Option LatestLoc :=
          match normalizedLatest with
          | some nl => some nl
          | none =>
              if cleaned.length > 0 then
                some ⟨deviceId, (cleaned.getLast?.getD default).lat,
                  (cleaned.getLast?.getD default).lon, none, none, false,
                  tsKey (cleaned.getLast?.getD default)⟩
              else none
        (⟨latestFinal, cleaned, none, false, cache2⟩, calls)

/-- C8.  Empty-device-identifier precondition: when the device id trims to
the empty string, the cycle fails immediately with the validation error
message, issues zero network calls, and leaves the cache (and all other
state) untouched. -/
theorem loadData_empty_device (dist : Point → Point → ℚ) (now : ℚ) (deviceId : String)
    (outcome : FetchOutcome) (st : AppState) (h : jsTrim deviceId = "") :
    loadData dist now deviceId outcome st =
      (⟨st.latestLocation, st.history, some "Please enter a device ID",
        st.loading, st.cache⟩, []) := by
  simp only [loadData]
  rw [if_pos h]

/-- C9.  Fetch-failure atomicity: when the combined fetch rejects, the cycle
reports the descriptive error, clears the in-memory latest report and trace,
leaves the persisted cache exactly as it was, and has issued the two fetch
requests. -/
theorem loadData_fetch_failure (dist : Point → Point → ℚ) (now : ℚ) (deviceId : String)
    (msg : String) (st : AppState) (h : jsTrim deviceId ≠ "") :
    (loadData dist now deviceId (FetchOutcome.fail msg) st).1.error =
        some ("Failed to load data: " ++ msg)
    ∧ (loadData dist now deviceId (FetchOutcome.fail msg) st).1.latestLocation = none
    ∧ (loadData dist now deviceId (FetchOutcome.fail msg) st).1.history = []
    ∧ (loadData dist now deviceId (FetchOutcome.fail msg) st).1.cache = st.cache
    ∧ (loadData dist now deviceId (FetchOutcome.fail msg) st).2 =
        [NetCall.latestCall deviceId, NetCall.historyCall deviceId] := by
  simp only [loadData]
  rw [if_neg h]
  exact ⟨rfl, rfl, rfl, rfl, rfl⟩

/-- A concrete empty app state for witnesses. -/
def st0 : AppState := ⟨none, [], none, false, fun _ => none⟩

/-- A concrete app state with a non-trivial cache entry for witnesses. -/
def stC : AppState :=
  ⟨some latest5, [ptA], none, false,
    fun k => if k = localHistoryKey "esp01" then some [ptA, ptB] else none⟩

theorem loadData_empty_device_witness :
    loadData dist0 1700000000 "" (FetchOutcome.fail "boom") st0 =
      (⟨st0.latestLocation, st0.history, some "Please enter a device ID",
        st0.loading, st0.cache⟩, []) :=
  loadData_empty_device dist0 1700000000 "" (FetchOutcome.fail "boom") st0 (by decide)

theorem loadData_fetch_failure_witness :
    jsTrim "esp01" ≠ ""
    ∧ (loadData dist0 1700000000 "esp01" (FetchOutcome.fail "network down") stC).1.cache =
        stC.cache
    ∧ (loadData dist0 1700000000 "esp01" (FetchOutcome.fail "network down") stC).1.history = [] :=
  ⟨by decide,
    (loadData_fetch_failure dist0 1700000000 "esp01" "network down" stC (by decide)).2.2.2.1,
    (loadData_fetch_failure dist0 1700000000 "esp01" "network down" stC (by decide)).2.2.1⟩
